import Mathlib

/-
  Verification development for the wazuh event router
  (src/engine/source/router/include/router/router.hpp).

  The router keeps two coupled indexes over the set of routes
  (m_namePriority : name to priority, m_priorityRoute : ordered map from
  priority to route), dispatches each event to the first route, in ascending
  priority order, whose per-worker predicate matches, and persists the table
  as a JSON array under a fixed store key.

  The Router constructor is given inline in the header and is embedded from
  that source.  The bodies of addRoute / removeRoute / changeRoutePriority /
  getRouteTable / tableToJson / dumpTableToStorage and of the dispatch loop
  are only declared in the header; those operations are modelled from the
  spec (their doc comments say so).
-/

namespace WazuhRouter

/-- Events are opaque records; the router never inspects their fields, it only
feeds them to predicates and evaluators.  They are modelled by an arbitrary
countable carrier. -/
abbrev Event := Nat

/-- A condition predicate of one environment replica. -/
abbrev Predicate := Event → Bool

/-- Modelled from the spec: the external builder resolves an environment name
to a condition predicate (`build(target) → (evaluator, predicate) | Error`);
the evaluator side is identified by the target name in this model.  `none`
models a build failure / unknown target. -/
abbrev Builder := String → Option Predicate

/-- Shallow JSON values, enough for the catalog serialization. -/
inductive JVal where
  | null
  | str (s : String)
  | num (n : Int)
  | arr (elems : List JVal)
  | obj (fields : List (String × JVal))

/-- Field lookup on a JSON object; `none` on non-objects. -/
def JVal.getField : JVal → String → Option JVal
  | .obj fields, path => fields.lookup path
  | _, _ => none

/-- Embeds `json::Json::getArray`: the element list when the value is an
array, absent otherwise. -/
def JVal.getArray : JVal → Option (List JVal)
  | .arr elems => some elems
  | _ => none

/-- Embeds `json::Json::getString` at a path. -/
def JVal.getString (j : JVal) (path : String) : Option String :=
  match j.getField path with
  | some (.str s) => some s
  | _ => none

/-- Embeds `json::Json::getInt` at a path. -/
def JVal.getInt (j : JVal) (path : String) : Option Int :=
  match j.getField path with
  | some (.num n) => some n
  | _ => none

/-- The durable key/value store (`store::IStore`).  `writeFails` models an
injected failure of the store's write path. -/
structure Store where
  data : List (String × JVal)
  writeFails : Bool

/-- Store read: the stored value, or an error when the key is absent. -/
def Store.get (st : Store) (key : String) : Except String JVal :=
  match st.data.lookup key with
  | some v => .ok v
  | none => .error "not found"

/-- Store write (overwrite on subsequent calls, per spec section 6). -/
def Store.add (st : Store) (key : String) (value : JVal) : Except String Store :=
  if st.writeFails then .error "store write failure"
  else .ok { st with data := (key, value) :: st.data.filter (fun kv => kv.1 != key) }

/-- Name of the routes table in the store (router.hpp line 22). -/
def ROUTES_TABLE_NAME : String := "internal/router_table/0"

/-- Json path for the name of the route (router.hpp line 23). -/
def JSON_PATH_NAME : String := "/name"

/-- Json path for the priority of the route (router.hpp line 24). -/
def JSON_PATH_PRIORITY : String := "/priority"

/-- Json path for the target of the route (router.hpp line 25). -/
def JSON_PATH_TARGET : String := "/target"

/-- A route: a named binding of a condition to a target environment, with one
predicate replica per worker thread (spec section 3). -/
structure Route where
  name : String
  target : String
  priority : Nat
  predicates : List Predicate

/-- The environment manager, created by the Router constructor with the
builder and the worker count (router.hpp line 142). -/
structure EnvironmentManager where
  builder : Builder
  numThreads : Nat

/-- Modelled from the spec: `EnvironmentManager::acquire` is absent from src;
per spec section 4.2 it ensures `W` replicas of the named environment exist,
building them via the external builder, and fails when the builder does. -/
def EnvironmentManager.acquire (m : EnvironmentManager) (target : String) :
    Option (List Predicate) :=
  (m.builder target).map (fun p => List.replicate m.numThreads p)

/-- The router status: the two coupled route indexes (m_namePriority and
m_priorityRoute, router.hpp lines 49 and 50), the environment manager and the
configured worker count.  `priorityRoute` models the `std::map` as an
association list kept ordered by ascending priority key. -/
structure RouterState where
  namePriority : List (String × Nat)
  priorityRoute : List (Nat × Route)
  envManager : EnvironmentManager
  numThreads : Nat

/-- Error taxonomy of the table operations (spec section 7). -/
inductive RouterError where
  | emptyName
  | negativePriority
  | duplicateName
  | duplicatePriority
  | notFound
  | targetNotFound
deriving DecidableEq

/-- Lookup in the name-to-priority index (m_namePriority.find). -/
def lookupName : List (String × Nat) → String → Option Nat
  | [], _ => none
  | (k, p) :: rest, n => if k = n then some p else lookupName rest n

/-- Lookup in the priority-to-route index (m_priorityRoute.find). -/
def lookupPriority : List (Nat × Route) → Nat → Option Route
  | [], _ => none
  | (q, r) :: rest, p => if q = p then some r else lookupPriority rest p

/-- Whether a priority key is already used in the table. -/
def usedPriority (l : List (Nat × Route)) (p : Nat) : Bool :=
  l.any (fun pr => pr.1 == p)

/-- Ordered insertion into the priority-to-route index, modelling
`std::map` insertion by ascending key. -/
def insertSorted (p : Nat) (r : Route) : List (Nat × Route) → List (Nat × Route)
  | [] => [(p, r)]
  | (q, s) :: rest =>
    if p < q then (p, r) :: (q, s) :: rest
    else (q, s) :: insertSorted p r rest

/-- Modelled from the spec: the body of `Router::addRoute` is absent from src
(declared at router.hpp line 212).  Per spec sections 4.4 and 7 it rejects an
empty name, a negative priority, a duplicate name, a duplicate priority and an
unresolvable target, and otherwise inserts the new route into both indexes. -/
def addRoute (s : RouterState) (routeName envName : String) (priority : Int) :
    Except RouterError RouterState :=
  if routeName = "" then .error .emptyName
  else if priority < 0 then .error .negativePriority
  else if (lookupName s.namePriority routeName).isSome then .error .duplicateName
  else if usedPriority s.priorityRoute priority.toNat then .error .duplicatePriority
  else
    match s.envManager.acquire envName with
    | none => .error .targetNotFound
    | some preds =>
      .ok { s with
            namePriority := (routeName, priority.toNat) :: s.namePriority,
            priorityRoute :=
              insertSorted priority.toNat
                ⟨routeName, envName, priority.toNat, preds⟩ s.priorityRoute }

/-- Modelled from the spec: the body of `Router::removeRoute` is absent from
src (declared at router.hpp line 228).  Per spec section 4.4 it fails with
NotFound when the name is absent and otherwise removes the route from both
indexes. -/
def removeRoute (s : RouterState) (name : String) : Except RouterError RouterState :=
  match lookupName s.namePriority name with
  | none => .error .notFound
  | some p =>
    .ok { s with
          namePriority := s.namePriority.filter (fun kv => kv.1 != name),
          priorityRoute := s.priorityRoute.filter (fun pr => pr.1 != p) }

/-- Modelled from the spec: the body of `Router::changeRoutePriority` is
absent from src (declared at router.hpp line 200).  Per spec section 4.4 it
fails with NotFound for an unknown name and DuplicatePriority for a used
priority, and otherwise moves the route in the priority index, preserving its
identity and predicate replicas. -/
def changeRoutePriority (s : RouterState) (name : String) (priority : Int) :
    Except RouterError RouterState :=
  if priority < 0 then .error .negativePriority
  else
    match lookupName s.namePriority name with
    | none => .error .notFound
    | some pOld =>
      if usedPriority s.priorityRoute priority.toNat then .error .duplicatePriority
      else
        match lookupPriority s.priorityRoute pOld with
        | none => .error .notFound
        | some r =>
          .ok { s with
                namePriority :=
                  (name, priority.toNat) :: s.namePriority.filter (fun kv => kv.1 != name),
                priorityRoute :=
                  insertSorted priority.toNat { r with priority := priority.toNat }
                    (s.priorityRoute.filter (fun pr => pr.1 != pOld)) }

/-- Modelled from the spec: the body of `Router::getRouteTable` is absent from
src (declared at router.hpp line 191).  It lists (name, priority, target) for
every route, ordered ascending by priority. -/
def getRouteTable (s : RouterState) : List (String × Nat × String) :=
  s.priorityRoute.map (fun pr => (pr.2.name, pr.1, pr.2.target))

/-- Serialization of one table entry as a JSON record. -/
def routeToJson (pr : Nat × Route) : JVal :=
  .obj [(JSON_PATH_NAME, .str pr.2.name),
        (JSON_PATH_PRIORITY, .num (pr.1 : Int)),
        (JSON_PATH_TARGET, .str pr.2.target)]

/-- Modelled from the spec: the body of `Router::tableToJson` is absent from
src (declared at router.hpp line 71).  Per its header doc comment it is the
array of (name, priority, target) records sorted by priority. -/
def tableToJson (s : RouterState) : JVal :=
  .arr (s.priorityRoute.map routeToJson)

/-- Outcome of dumping the table: either the updated store, or process
termination. -/
inductive DumpOutcome where
  | stored (st : Store)
  | processExit

/-- Modelled from the spec: the body of `Router::dumpTableToStorage` is absent
from src (declared at router.hpp line 77, whose doc comment warns that the
method exits the program when the store fails).  Per spec section 4.6 a write
failure is fatal to the process. -/
def dumpTableToStorage (s : RouterState) (store : Store) : DumpOutcome :=
  match store.add ROUTES_TABLE_NAME (tableToJson s) with
  | .ok st => .stored st
  | .error _ => .processExit

/-- Worker i evaluates its own predicate replica of a route on an event
(spec sections 3 and 4.5); a missing replica never matches. -/
def Route.matchesAt (r : Route) (i : Nat) (e : Event) : Bool :=
  match r.predicates[i]? with
  | some p => p e
  | none => false

/-- Modelled from the spec: the dispatch loop body is absent from src.  Per
spec section 4.5 a worker walks the table in ascending priority order and
selects the first route whose per-worker predicate matches. -/
def scanRoutes (i : Nat) (e : Event) : List (Nat × Route) → Option Route
  | [] => none
  | (_, r) :: rest => if r.matchesAt i e then some r else scanRoutes i e rest

/-- The route selected for an event by worker i, if any. -/
def dispatchRoute (s : RouterState) (i : Nat) (e : Event) : Option Route :=
  scanRoutes i e s.priorityRoute

/-- The ingest calls issued for one event by worker i: the target environment
of the first matching route, called exactly once, or none at all. -/
def ingestCalls (s : RouterState) (i : Nat) (e : Event) : List String :=
  match dispatchRoute s i e with
  | some r => [r.target]
  | none => []

/-- Failure modes of the Router constructor (router.hpp lines 132 to 168). -/
inductive InitError where
  | zeroThreads
  | nullBuilder
  | invalidTable
deriving DecidableEq

/-- Log line of router.hpp line 148. -/
def MSG_TABLE_NOT_FOUND : String :=
  "Router: Routes table not found in store. Creating new table."

/-- Log line of router.hpp line 173. -/
def warnCouldNotAdd (name : String) : String :=
  "Router: couldn't add route " ++ name ++ " to the router"

/-- Log line of router.hpp line 182. -/
def MSG_NO_ENVIRONMENT : String :=
  "There is no environment loaded. Events will be written in disk once the queue is full."

/-- Embeds the catalog-loading loop of the Router constructor (router.hpp
lines 160 to 176): each record must carry the name, priority and target
fields, otherwise construction fails; a record whose addRoute fails is logged
and skipped and the load continues. -/
def loadTable (s : RouterState) (logs : List String) :
    List JVal → Except InitError (RouterState × List String)
  | [] => .ok (s, logs)
  | j :: rest =>
    match j.getString JSON_PATH_NAME, j.getInt JSON_PATH_PRIORITY,
          j.getString JSON_PATH_TARGET with
    | some name, some prio, some target =>
      match addRoute s name target prio with
      | .ok s2 => loadTable s2 logs rest
      | .error _ => loadTable s (logs ++ [warnCouldNotAdd name]) rest
    | _, _, _ => .error .invalidTable

/-- Embeds the Router constructor (router.hpp lines 122 to 184).  The builder
argument is optional to model the null-pointer check.  On success it returns
the initial state, the store as left by construction, and the log lines
emitted.  Note that when the table key is absent the constructor writes an
empty catalog and returns early, skipping the empty-table warning check. -/
def routerInit (builder : Option Builder) (store : Store) (threads : Nat) :
    Except InitError (RouterState × Store × List String) :=
  if threads = 0 then .error .zeroThreads
  else
    match builder with
    | none => .error .nullBuilder
    | some b =>
      let s0 : RouterState := ⟨[], [], ⟨b, threads⟩, threads⟩
      match store.get ROUTES_TABLE_NAME with
      | .error _ =>
        let store2 :=
          match store.add ROUTES_TABLE_NAME (.arr []) with
          | .ok st => st
          | .error _ => store
        .ok (s0, store2, [MSG_TABLE_NOT_FOUND])
      | .ok j =>
        match j.getArray with
        | none => .error .invalidTable
        | some table =>
          match loadTable s0 [] table with
          | .error e => .error e
          | .ok (s1, logs) =>
            if (getRouteTable s1).isEmpty then
              .ok (s1, store, logs ++ [MSG_NO_ENVIRONMENT])
            else
              .ok (s1, store, logs)

/-- Default worker-thread count of the Router constructor (router.hpp line
122: `std::size_t threads = 1`). -/
def ROUTER_DEFAULT_THREADS : Nat := 1

/-- The Router constructor called without a thread count uses the default. -/
def routerInitDefault (builder : Option Builder) (store : Store) :
    Except InitError (RouterState × Store × List String) :=
  routerInit builder store ROUTER_DEFAULT_THREADS

/-- One mutating table operation, for reasoning about operation sequences. -/
inductive Op where
  | add (name target : String) (priority : Int)
  | remove (name : String)
  | changePriority (name : String) (priority : Int)

/-- Applies one operation; a failed operation leaves the table unchanged
(spec section 7: errors are reported and the table is unchanged). -/
def applyOp (s : RouterState) : Op → RouterState
  | .add n t p =>
    match addRoute s n t p with
    | .ok s2 => s2
    | .error _ => s
  | .remove n =>
    match removeRoute s n with
    | .ok s2 => s2
    | .error _ => s
  | .changePriority n p =>
    match changeRoutePriority s n p with
    | .ok s2 => s2
    | .error _ => s

/-- The empty route table, as set up by the Router constructor. -/
def emptyRouterState (b : Builder) (threads : Nat) : RouterState :=
  ⟨[], [], ⟨b, threads⟩, threads⟩

/-- Runs a sequence of operations from the empty table. -/
def applyOps (b : Builder) (threads : Nat) (ops : List Op) : RouterState :=
  ops.foldl applyOp (emptyRouterState b threads)

/-- Names of the routes held in the priority index. -/
def routeNames (s : RouterState) : List String :=
  s.priorityRoute.map (fun pr => pr.2.name)

/-- Priority keys of the priority index, in storage order. -/
def routePriorities (s : RouterState) : List Nat :=
  s.priorityRoute.map Prod.fst

/-- Invariant I1: route names are unique across the table. -/
def uniqueNames (s : RouterState) : Prop := (routeNames s).Nodup

/-- Invariant I3: no two routes share a priority. -/
def uniquePriorities (s : RouterState) : Prop := (routePriorities s).Nodup

/-- Invariant I2: the name-to-priority index and the priority-to-route index
describe exactly the same set of routes. -/
def indexesAgree (s : RouterState) : Prop :=
  ∀ n p, (n, p) ∈ s.namePriority ↔ ∃ r, (p, r) ∈ s.priorityRoute ∧ r.name = n

/-- Sample predicate for concrete runs: matches every event. -/
def predTrue : Predicate := fun _ => true

/-- Sample builder that resolves every target. -/
def builderTrue : Builder := fun _ => some predTrue

/-- Sample builder that no longer knows the target TB. -/
def builderNoTB : Builder := fun t => if t = "TB" then none else some predTrue

/-- A store with no catalog at all. -/
def emptyStore : Store := ⟨[], false⟩

/-- A store whose catalog value is not a JSON array. -/
def corruptStore : Store := ⟨[(ROUTES_TABLE_NAME, .str "oops")], false⟩

/-- A store whose catalog holds one record lacking the priority and target
fields. -/
def badRecStore : Store :=
  ⟨[(ROUTES_TABLE_NAME, .arr [.obj [(JSON_PATH_NAME, .str "r1")]])], false⟩

/-- A store holding an empty catalog array. -/
def emptyTableStore : Store := ⟨[(ROUTES_TABLE_NAME, .arr [])], false⟩

/-- Serialized record of route r1 at priority 5 targeting TA. -/
def recR1 : JVal :=
  .obj [(JSON_PATH_NAME, .str "r1"), (JSON_PATH_PRIORITY, .num 5),
        (JSON_PATH_TARGET, .str "TA")]

/-- Serialized record of route r2 at priority 10 targeting TB. -/
def recR2 : JVal :=
  .obj [(JSON_PATH_NAME, .str "r2"), (JSON_PATH_PRIORITY, .num 10),
        (JSON_PATH_TARGET, .str "TB")]

/-- A store holding the two-record catalog. -/
def twoRouteStore : Store := ⟨[(ROUTES_TABLE_NAME, .arr [recR1, recR2])], false⟩

/-- A store whose write path fails. -/
def failingStore : Store := ⟨[], true⟩

/-- The route built for r1 with one worker. -/
def routeA : Route := ⟨"r1", "TA", 5, [predTrue]⟩

/-- The route built for r2 with one worker. -/
def routeB : Route := ⟨"r2", "TB", 10, [predTrue]⟩

/-- A sample two-route table obtained by adding r1 then r2. -/
def sampleOps : List Op := [.add "r1" "TA" 5, .add "r2" "TB" 10]

/-- The state reached from the empty table by sampleOps. -/
def sampleState : RouterState := applyOps builderTrue 1 sampleOps

/-- A store holding the catalog persisted from sampleState. -/
def sampleStore : Store := ⟨[(ROUTES_TABLE_NAME, tableToJson sampleState)], false⟩

/-- The full well-formedness invariant maintained by the table operations. -/
structure Inv (s : RouterState) : Prop where
  names_nodup : uniqueNames s
  prio_sorted : List.Pairwise (· < ·) (routePriorities s)
  np_nodup : (s.namePriority.map Prod.fst).Nodup
  agree : indexesAgree s
  key_eq : ∀ p r, (p, r) ∈ s.priorityRoute → r.priority = p
  names_nonempty : ∀ p r, (p, r) ∈ s.priorityRoute → r.name ≠ ""

/-! Helper lemmas about the index lookups. -/

theorem lookupName_some_mem {l : List (String × Nat)} {n : String} {p : Nat}
    (h : lookupName l n = some p) : (n, p) ∈ l := by
  induction l with
  | nil => simp [lookupName] at h
  | cons kv rest ih =>
    obtain ⟨k, q⟩ := kv
    by_cases hk : k = n
    · subst hk
      simp [lookupName] at h
      simp [h]
    · simp only [lookupName, hk, if_false] at h
      exact List.mem_cons_of_mem _ (ih h)

theorem lookupName_none {l : List (String × Nat)} {n : String}
    (h : lookupName l n = none) : ∀ p, (n, p) ∉ l := by
  induction l with
  | nil => simp
  | cons kv rest ih =>
    obtain ⟨k, q⟩ := kv
    by_cases hk : k = n
    · subst hk
      simp [lookupName] at h
    · simp only [lookupName, hk, if_false] at h
      intro p hp
      rcases List.mem_cons.mp hp with h1 | h1
      · exact hk (congrArg Prod.fst h1).symm
      · exact ih h p h1

theorem lookupName_isSome_of_mem {l : List (String × Nat)} {n : String} {p : Nat}
    (h : (n, p) ∈ l) : (lookupName l n).isSome = true := by
  cases hl : lookupName l n with
  | none => exact absurd h (lookupName_none hl p)
  | some q => rfl

theorem lookupPriority_some_mem {l : List (Nat × Route)} {p : Nat} {r : Route}
    (h : lookupPriority l p = some r) : (p, r) ∈ l := by
  induction l with
  | nil => simp [lookupPriority] at h
  | cons kv rest ih =>
    obtain ⟨q, s⟩ := kv
    by_cases hq : q = p
    · subst hq
      simp [lookupPriority] at h
      simp [h]
    · simp only [lookupPriority, hq, if_false] at h
      exact List.mem_cons_of_mem _ (ih h)

theorem usedPriority_false_iff {l : List (Nat × Route)} {p : Nat} :
    usedPriority l p = false ↔ ∀ q r, (q, r) ∈ l → q ≠ p := by
  constructor
  · intro h q r hm he
    have : l.any (fun pr => pr.1 == p) = true :=
      List.any_eq_true.mpr ⟨(q, r), hm, by simp [he]⟩
    rw [usedPriority] at h
    rw [this] at h
    exact Bool.false_ne_true h.symm
  · intro h
    rw [usedPriority]
    by_contra hb
    have := List.any_eq_true.mp (eq_true_of_ne_false hb)
    obtain ⟨⟨q, r⟩, hm, he⟩ := this
    exact h q r hm (by simpa using he)

/-! Helper lemmas about ordered insertion. -/

theorem insertSorted_perm (p : Nat) (r : Route) (l : List (Nat × Route)) :
    List.Perm (insertSorted p r l) ((p, r) :: l) := by
  induction l with
  | nil => simp [insertSorted]
  | cons qs rest ih =>
    obtain ⟨q, s⟩ := qs
    by_cases hlt : p < q
    · simp [insertSorted, hlt]
    · simp only [insertSorted, hlt, if_false]
      exact List.Perm.trans (List.Perm.cons _ ih) (List.Perm.swap _ _ _)

theorem mem_insertSorted {p : Nat} {r : Route} {l : List (Nat × Route)}
    {x : Nat × Route} : x ∈ insertSorted p r l ↔ x = (p, r) ∨ x ∈ l := by
  rw [(insertSorted_perm p r l).mem_iff]
  simp

theorem insertSorted_map_perm (p : Nat) (r : Route) (l : List (Nat × Route))
    (f : Nat × Route → α) :
    List.Perm ((insertSorted p r l).map f) (f (p, r) :: l.map f) :=
  (insertSorted_perm p r l).map f

theorem insertSorted_sorted {p : Nat} {r : Route} {l : List (Nat × Route)}
    (hs : List.Pairwise (· < ·) (l.map Prod.fst))
    (hfresh : ∀ q ∈ l.map Prod.fst, q ≠ p) :
    List.Pairwise (· < ·) ((insertSorted p r l).map Prod.fst) := by
  induction l with
  | nil => simp [insertSorted]
  | cons qs rest ih =>
    obtain ⟨q, s⟩ := qs
    simp only [List.map_cons, List.pairwise_cons] at hs
    obtain ⟨hq, hrest⟩ := hs
    by_cases hlt : p < q
    · simp only [insertSorted, hlt, if_true, List.map_cons, List.pairwise_cons]
      refine ⟨?_, ?_⟩
      · intro x hx
        rcases List.mem_cons.mp hx with h1 | h1
        · omega
        · exact lt_trans hlt (hq x h1)
      · exact ⟨hq, hrest⟩
    · have hqp : q < p := by
        have hne : q ≠ p := hfresh q (by simp)
        omega
      simp only [insertSorted, hlt, if_false, List.map_cons, List.pairwise_cons]
      refine ⟨?_, ?_⟩
      · intro x hx
        have : x ∈ (p :: rest.map Prod.fst) :=
          ((insertSorted_map_perm p r rest Prod.fst).mem_iff).mp hx
        rcases List.mem_cons.mp this with h1 | h1
        · omega
        · exact hq x h1
      · exact ih hrest (fun x hx => hfresh x (List.mem_cons_of_mem _ hx))

theorem insertSorted_append {p : Nat} {r : Route} {l : List (Nat × Route)}
    (h : ∀ q ∈ l.map Prod.fst, q < p) :
    insertSorted p r l = l ++ [(p, r)] := by
  induction l with
  | nil => simp [insertSorted]
  | cons qs rest ih =>
    obtain ⟨q, s⟩ := qs
    have hq : q < p := h q (by simp)
    have hnlt : ¬ p < q := by omega
    simp only [insertSorted, hnlt, if_false, List.cons_append, List.cons.injEq, true_and]
    exact ih (fun x hx => h x (List.mem_cons_of_mem _ hx))

/-! Elimination and introduction forms of the table operations. -/

theorem mem_filter_ne {α β : Type} [DecidableEq α] {l : List (α × β)} {x : α × β}
    {v : α} : x ∈ l.filter (fun kv => kv.1 != v) ↔ x ∈ l ∧ x.1 ≠ v := by
  simp [List.mem_filter]

theorem addRoute_ok {s : RouterState} {n t : String} {p : Int} {s2 : RouterState}
    (h : addRoute s n t p = .ok s2) :
    n ≠ "" ∧ ¬ p < 0 ∧ lookupName s.namePriority n = none ∧
      usedPriority s.priorityRoute p.toNat = false ∧
      ∃ preds, s.envManager.acquire t = some preds ∧
        s2 = { s with
               namePriority := (n, p.toNat) :: s.namePriority,
               priorityRoute :=
                 insertSorted p.toNat ⟨n, t, p.toNat, preds⟩ s.priorityRoute } := by
  unfold addRoute at h
  split at h
  · cases h
  next hn =>
    split at h
    · cases h
    next hp =>
      split at h
      · cases h
      next hdup =>
        split at h
        · cases h
        next hused =>
          split at h
          next heq => cases h
          next preds heq =>
            cases h
            refine ⟨hn, hp, ?_, ?_, preds, heq, rfl⟩
            · exact Option.not_isSome_iff_eq_none.mp hdup
            · simpa using hused

theorem addRoute_succeeds {s : RouterState} {n t : String} {p : Int}
    (hn : n ≠ "") (hp : ¬ p < 0)
    (hlook : lookupName s.namePriority n = none)
    (hused : usedPriority s.priorityRoute p.toNat = false)
    {preds : List Predicate} (hacq : s.envManager.acquire t = some preds) :
    addRoute s n t p =
      .ok { s with
            namePriority := (n, p.toNat) :: s.namePriority,
            priorityRoute :=
              insertSorted p.toNat ⟨n, t, p.toNat, preds⟩ s.priorityRoute } := by
  unfold addRoute
  simp [hn, hp, hlook, hused, hacq]

theorem addRoute_inv {s s2 : RouterState} {n t : String} {p : Int}
    (hInv : Inv s) (h : addRoute s n t p = .ok s2) : Inv s2 := by
  obtain ⟨hn, hp, hlook, hused, preds, hacq, hs2⟩ := addRoute_ok h
  subst hs2
  have hfreshp : ∀ q ∈ s.priorityRoute.map Prod.fst, q ≠ p.toNat := by
    intro q hq
    rw [List.mem_map] at hq
    obtain ⟨⟨q1, r⟩, hm, he⟩ := hq
    exact he ▸ usedPriority_false_iff.mp hused q1 r hm
  have hfreshname : n ∉ routeNames s := by
    intro hmem
    rw [routeNames, List.mem_map] at hmem
    obtain ⟨⟨q, r⟩, hm, hname⟩ := hmem
    have h1 : (n, q) ∈ s.namePriority := (hInv.agree n q).mpr ⟨r, hm, hname⟩
    have h2 := lookupName_isSome_of_mem h1
    rw [hlook] at h2
    cases h2
  have hfreshnp : n ∉ s.namePriority.map Prod.fst := by
    intro hmem
    rw [List.mem_map] at hmem
    obtain ⟨⟨k, q⟩, hm, hk⟩ := hmem
    subst hk
    have h2 := lookupName_isSome_of_mem hm
    rw [hlook] at h2
    cases h2
  constructor
  · rw [uniqueNames, routeNames]
    rw [(insertSorted_map_perm _ _ _ _).nodup_iff]
    exact List.nodup_cons.mpr ⟨hfreshname, hInv.names_nodup⟩
  · rw [routePriorities]
    exact insertSorted_sorted hInv.prio_sorted hfreshp
  · exact List.nodup_cons.mpr ⟨hfreshnp, hInv.np_nodup⟩
  · intro n1 p1
    constructor
    · intro hmem
      rcases List.mem_cons.mp hmem with h1 | h1
      · rw [Prod.mk.injEq] at h1
        obtain ⟨h2, h3⟩ := h1
        subst h2; subst h3
        exact ⟨⟨n1, t, p.toNat, preds⟩, mem_insertSorted.mpr (Or.inl rfl), rfl⟩
      · obtain ⟨r, hm, hname⟩ := (hInv.agree n1 p1).mp h1
        exact ⟨r, mem_insertSorted.mpr (Or.inr hm), hname⟩
    · intro hex
      obtain ⟨r, hm, hname⟩ := hex
      rcases mem_insertSorted.mp hm with h1 | h1
      · rw [Prod.mk.injEq] at h1
        obtain ⟨h2, h3⟩ := h1
        subst h2
        subst h3
        have h4 : n = n1 := hname
        subst h4
        exact List.mem_cons_self _ _
      · exact List.mem_cons_of_mem _ ((hInv.agree n1 p1).mpr ⟨r, h1, hname⟩)
  · intro p1 r hm
    rcases mem_insertSorted.mp hm with h1 | h1
    · rw [Prod.mk.injEq] at h1
      obtain ⟨h2, h3⟩ := h1
      subst h2
      subst h3
      rfl
    · exact hInv.key_eq p1 r h1
  · intro p1 r hm
    rcases mem_insertSorted.mp hm with h1 | h1
    · rw [Prod.mk.injEq] at h1
      obtain ⟨h2, h3⟩ := h1
      subst h3
      exact hn
    · exact hInv.names_nonempty p1 r h1

/-! Uniqueness consequences of the invariant. -/

theorem key_unique {l : List (Nat × Route)} (hnd : (l.map Prod.fst).Nodup)
    {p : Nat} {a b : Route} (ha : (p, a) ∈ l) (hb : (p, b) ∈ l) : a = b := by
  have := List.inj_on_of_nodup_map hnd ha hb rfl
  exact congrArg Prod.snd this

theorem name_unique {l : List (Nat × Route)}
    (hnd : (l.map (fun pr => pr.2.name)).Nodup)
    {p q : Nat} {a b : Route} (ha : (p, a) ∈ l) (hb : (q, b) ∈ l)
    (hname : a.name = b.name) : p = q ∧ a = b := by
  have := List.inj_on_of_nodup_map hnd ha hb hname
  exact ⟨congrArg Prod.fst this, congrArg Prod.snd this⟩

theorem np_key_unique {l : List (String × Nat)} (hnd : (l.map Prod.fst).Nodup)
    {n : String} {p q : Nat} (hp : (n, p) ∈ l) (hq : (n, q) ∈ l) : p = q := by
  have := List.inj_on_of_nodup_map hnd hp hq rfl
  exact congrArg Prod.snd this

theorem Inv.prio_nodup {s : RouterState} (hInv : Inv s) :
    (s.priorityRoute.map Prod.fst).Nodup :=
  hInv.prio_sorted.imp (fun hl => Nat.ne_of_lt hl)

/-! Invariant preservation by removeRoute. -/

theorem removeRoute_ok {s s2 : RouterState} {n : String}
    (h : removeRoute s n = .ok s2) :
    ∃ p, lookupName s.namePriority n = some p ∧
      s2 = { s with
             namePriority := s.namePriority.filter (fun kv => kv.1 != n),
             priorityRoute := s.priorityRoute.filter (fun pr => pr.1 != p) } := by
  unfold removeRoute at h
  split at h
  next hl => cases h
  next p hl =>
    cases h
    exact ⟨p, hl, rfl⟩

theorem removeRoute_inv {s s2 : RouterState} {n : String}
    (hInv : Inv s) (h : removeRoute s n = .ok s2) : Inv s2 := by
  obtain ⟨p, hl, hs2⟩ := removeRoute_ok h
  subst hs2
  have hnp : (n, p) ∈ s.namePriority := lookupName_some_mem hl
  obtain ⟨rr, hrr, hrrname⟩ := (hInv.agree n p).mp hnp
  have subpr : List.Sublist (s.priorityRoute.filter (fun pr => pr.1 != p))
      s.priorityRoute := List.filter_sublist _
  have subnp : List.Sublist (s.namePriority.filter (fun kv => kv.1 != n))
      s.namePriority := List.filter_sublist _
  constructor
  · exact hInv.names_nodup.sublist (subpr.map _)
  · exact hInv.prio_sorted.sublist (subpr.map _)
  · exact hInv.np_nodup.sublist (subnp.map _)
  · intro n1 p1
    constructor
    · intro hmem
      have hmem2 := mem_filter_ne.mp hmem
      obtain ⟨hin, hne⟩ := hmem2
      obtain ⟨r, hr, hrname⟩ := (hInv.agree n1 p1).mp hin
      refine ⟨r, mem_filter_ne.mpr ⟨hr, ?_⟩, hrname⟩
      intro hpe
      have hpe2 : p1 = p := hpe
      subst hpe2
      have := key_unique hInv.prio_nodup hr hrr
      subst this
      exact hne (hrname.symm.trans hrrname)
    · intro hex
      obtain ⟨r, hr, hrname⟩ := hex
      obtain ⟨hin, hne⟩ := mem_filter_ne.mp hr
      refine mem_filter_ne.mpr ⟨(hInv.agree n1 p1).mpr ⟨r, hin, hrname⟩, ?_⟩
      intro hne2
      have hne3 : n1 = n := hne2
      subst hne3
      obtain ⟨hpq, hab⟩ := name_unique hInv.names_nodup hin hrr
        (hrname.trans hrrname.symm)
      exact hne hpq
  · intro p1 r hm
    exact hInv.key_eq p1 r (mem_filter_ne.mp hm).1
  · intro p1 r hm
    exact hInv.names_nonempty p1 r (mem_filter_ne.mp hm).1

/-! Invariant preservation by changeRoutePriority. -/

theorem changeRoutePriority_ok {s s2 : RouterState} {n : String} {p : Int}
    (h : changeRoutePriority s n p = .ok s2) :
    ¬ p < 0 ∧ ∃ pOld r, lookupName s.namePriority n = some pOld ∧
      usedPriority s.priorityRoute p.toNat = false ∧
      lookupPriority s.priorityRoute pOld = some r ∧
      s2 = { s with
             namePriority :=
               (n, p.toNat) :: s.namePriority.filter (fun kv => kv.1 != n),
             priorityRoute :=
               insertSorted p.toNat { r with priority := p.toNat }
                 (s.priorityRoute.filter (fun pr => pr.1 != pOld)) } := by
  unfold changeRoutePriority at h
  split at h
  · cases h
  next hp =>
    split at h
    next hl => cases h
    next pOld hl =>
      split at h
      · cases h
      next hused =>
        split at h
        next hlp => cases h
        next r hlp =>
          cases h
          exact ⟨hp, pOld, r, hl, by simpa using hused, hlp, rfl⟩

theorem changeRoutePriority_inv {s s2 : RouterState} {n : String} {p : Int}
    (hInv : Inv s) (h : changeRoutePriority s n p = .ok s2) : Inv s2 := by
  obtain ⟨hp, pOld, r, hl, hused, hlp, hs2⟩ := changeRoutePriority_ok h
  subst hs2
  have hnp : (n, pOld) ∈ s.namePriority := lookupName_some_mem hl
  have hr : (pOld, r) ∈ s.priorityRoute := lookupPriority_some_mem hlp
  have hrname : r.name = n := by
    obtain ⟨rr, hrr, hrrname⟩ := (hInv.agree n pOld).mp hnp
    have := key_unique hInv.prio_nodup hr hrr
    rw [this]
    exact hrrname
  have subpr : List.Sublist (s.priorityRoute.filter (fun pr => pr.1 != pOld))
      s.priorityRoute := List.filter_sublist _
  have subnp : List.Sublist (s.namePriority.filter (fun kv => kv.1 != n))
      s.namePriority := List.filter_sublist _
  have hfreshp : ∀ q ∈ (s.priorityRoute.filter
      (fun pr => pr.1 != pOld)).map Prod.fst, q ≠ p.toNat := by
    intro q hq
    rw [List.mem_map] at hq
    obtain ⟨⟨q1, x⟩, hm, he⟩ := hq
    obtain ⟨hin, _⟩ := mem_filter_ne.mp hm
    exact he ▸ usedPriority_false_iff.mp hused q1 x hin
  have hnameout : r.name ∉ (s.priorityRoute.filter
      (fun pr => pr.1 != pOld)).map (fun pr => pr.2.name) := by
    intro hmem
    rw [List.mem_map] at hmem
    obtain ⟨⟨q, x⟩, hm, he⟩ := hmem
    obtain ⟨hin, hne⟩ := mem_filter_ne.mp hm
    obtain ⟨hpq, hab⟩ := name_unique hInv.names_nodup hin hr he
    exact hne hpq
  constructor
  · rw [uniqueNames, routeNames]
    rw [(insertSorted_map_perm _ _ _ _).nodup_iff]
    refine List.nodup_cons.mpr ⟨?_, hInv.names_nodup.sublist (subpr.map _)⟩
    exact hnameout
  · rw [routePriorities]
    exact insertSorted_sorted (hInv.prio_sorted.sublist (subpr.map _)) hfreshp
  · refine List.nodup_cons.mpr ⟨?_, hInv.np_nodup.sublist (subnp.map _)⟩
    intro hmem
    rw [List.mem_map] at hmem
    obtain ⟨⟨k, q⟩, hm, hk⟩ := hmem
    obtain ⟨_, hne⟩ := mem_filter_ne.mp hm
    exact hne hk
  · intro n1 p1
    constructor
    · intro hmem
      rcases List.mem_cons.mp hmem with h1 | h1
      · rw [Prod.mk.injEq] at h1
        obtain ⟨h2, h3⟩ := h1
        subst h2; subst h3
        exact ⟨{ r with priority := p.toNat },
          mem_insertSorted.mpr (Or.inl rfl), hrname⟩
      · obtain ⟨hin, hne⟩ := mem_filter_ne.mp h1
        obtain ⟨x, hx, hxname⟩ := (hInv.agree n1 p1).mp hin
        refine ⟨x, mem_insertSorted.mpr (Or.inr (mem_filter_ne.mpr ⟨hx, ?_⟩)), hxname⟩
        intro hpe
        have hpe2 : p1 = pOld := hpe
        subst hpe2
        have := key_unique hInv.prio_nodup hx hr
        subst this
        exact hne (hxname.symm.trans hrname)
    · intro hex
      obtain ⟨x, hx, hxname⟩ := hex
      rcases mem_insertSorted.mp hx with h1 | h1
      · rw [Prod.mk.injEq] at h1
        obtain ⟨h2, h3⟩ := h1
        subst h2
        subst h3
        have h4 : r.name = n1 := hxname
        rw [hrname] at h4
        subst h4
        exact List.mem_cons_self _ _
      · obtain ⟨hin, hne⟩ := mem_filter_ne.mp h1
        refine List.mem_cons_of_mem _ (mem_filter_ne.mpr
          ⟨(hInv.agree n1 p1).mpr ⟨x, hin, hxname⟩, ?_⟩)
        intro hne2
        have hne3 : n1 = n := hne2
        subst hne3
        obtain ⟨hpq, hab⟩ := name_unique hInv.names_nodup hin hr
          (hxname.trans hrname.symm)
        exact hne hpq
  · intro p1 x hm
    rcases mem_insertSorted.mp hm with h1 | h1
    · rw [Prod.mk.injEq] at h1
      obtain ⟨h2, h3⟩ := h1
      subst h2
      subst h3
      rfl
    · exact hInv.key_eq p1 x (mem_filter_ne.mp h1).1
  · intro p1 x hm
    rcases mem_insertSorted.mp hm with h1 | h1
    · rw [Prod.mk.injEq] at h1
      obtain ⟨h2, h3⟩ := h1
      subst h3
      have : r.name ≠ "" := hInv.names_nonempty pOld r hr
      exact this
    · exact hInv.names_nonempty p1 x (mem_filter_ne.mp h1).1

/-! Invariant preservation by operation sequences. -/

theorem inv_empty (b : Builder) (threads : Nat) : Inv (emptyRouterState b threads) := by
  constructor
  · simp [uniqueNames, routeNames, emptyRouterState]
  · simp [routePriorities, emptyRouterState]
  · simp [emptyRouterState]
  · intro n p
    simp [emptyRouterState]
  · intro p r hm
    simp [emptyRouterState] at hm
  · intro p r hm
    simp [emptyRouterState] at hm

theorem applyOp_inv {s : RouterState} (hInv : Inv s) (op : Op) :
    Inv (applyOp s op) := by
  cases op with
  | add n t p =>
    simp only [applyOp]
    cases h : addRoute s n t p with
    | ok s2 => exact addRoute_inv hInv h
    | error e => exact hInv
  | remove n =>
    simp only [applyOp]
    cases h : removeRoute s n with
    | ok s2 => exact removeRoute_inv hInv h
    | error e => exact hInv
  | changePriority n p =>
    simp only [applyOp]
    cases h : changeRoutePriority s n p with
    | ok s2 => exact changeRoutePriority_inv hInv h
    | error e => exact hInv

theorem applyOps_inv (b : Builder) (threads : Nat) (ops : List Op) :
    Inv (applyOps b threads ops) := by
  rw [applyOps]
  generalize hstart : emptyRouterState b threads = s0
  have h0 : Inv s0 := hstart ▸ inv_empty b threads
  clear hstart
  induction ops generalizing s0 with
  | nil => exact h0
  | cons op rest ih => exact ih _ (applyOp_inv h0 op)

/-! The priority scan selects the matching route of least priority. -/

theorem scanRoutes_first_min {i : Nat} {e : Event} :
    ∀ {l : List (Nat × Route)},
      List.Pairwise (· < ·) (l.map Prod.fst) →
      (∀ p r, (p, r) ∈ l → r.priority = p) →
      ∀ {q : Nat} {A : Route}, (q, A) ∈ l → A.matchesAt i e = true →
      ∃ r, scanRoutes i e l = some r ∧ r.matchesAt i e = true ∧
        (∃ p, (p, r) ∈ l) ∧
        (∀ p x, (p, x) ∈ l → x.matchesAt i e = true →
          r.priority ≤ x.priority) := by
  intro l
  induction l with
  | nil =>
    intro _ _ q A hA
    simp at hA
  | cons hd rest ih =>
    intro hsorted hkey q A hA hmA
    obtain ⟨p0, r0⟩ := hd
    simp only [List.map_cons, List.pairwise_cons] at hsorted
    obtain ⟨hlt, hsrest⟩ := hsorted
    by_cases hm0 : r0.matchesAt i e = true
    · refine ⟨r0, by simp [scanRoutes, hm0], hm0, ⟨p0, List.mem_cons_self _ _⟩, ?_⟩
      intro p x hx hmx
      have h0 : r0.priority = p0 := hkey p0 r0 (List.mem_cons_self _ _)
      rcases List.mem_cons.mp hx with h1 | h1
      · rw [Prod.mk.injEq] at h1
        obtain ⟨h2, h3⟩ := h1
        subst h2; subst h3
        omega
      · have hxp : x.priority = p := hkey p x (List.mem_cons_of_mem _ h1)
        have : p0 < p := hlt p (List.mem_map_of_mem Prod.fst h1)
        omega
    · have hArest : (q, A) ∈ rest := by
        rcases List.mem_cons.mp hA with h1 | h1
        · rw [Prod.mk.injEq] at h1
          obtain ⟨h2, h3⟩ := h1
          subst h3
          exact absurd hmA hm0
        · exact h1
      have hkeyrest : ∀ p r, (p, r) ∈ rest → r.priority = p :=
        fun p r hm => hkey p r (List.mem_cons_of_mem _ hm)
      obtain ⟨r, hscan, hmr, ⟨pr1, hpr1⟩, hmin⟩ :=
        ih hsrest hkeyrest hArest hmA
      refine ⟨r, ?_, hmr, ⟨pr1, List.mem_cons_of_mem _ hpr1⟩, ?_⟩
      · simp [scanRoutes, hm0, hscan]
      · intro p x hx hmx
        rcases List.mem_cons.mp hx with h1 | h1
        · rw [Prod.mk.injEq] at h1
          obtain ⟨h2, h3⟩ := h1
          subst h3
          exact absurd hmx hm0
        · exact hmin p x h1 hmx

/-! Parsing the serialized catalog records. -/

theorem routeToJson_name (pr : Nat × Route) :
    (routeToJson pr).getString JSON_PATH_NAME = some pr.2.name := rfl

theorem routeToJson_priority (pr : Nat × Route) :
    (routeToJson pr).getInt JSON_PATH_PRIORITY = some (pr.1 : Int) := rfl

theorem routeToJson_target (pr : Nat × Route) :
    (routeToJson pr).getString JSON_PATH_TARGET = some pr.2.target := rfl

theorem lookupName_none_of_fresh {s : RouterState} (hInv : Inv s) {n : String}
    (h : n ∉ routeNames s) : lookupName s.namePriority n = none := by
  cases hl : lookupName s.namePriority n with
  | none => rfl
  | some p =>
    obtain ⟨r, hr, hrname⟩ := (hInv.agree n p).mp (lookupName_some_mem hl)
    exact absurd (hrname ▸ List.mem_map_of_mem (fun pr => pr.2.name) hr) h

/-- Loading the serialization of a well-formed table batch onto a state whose
priorities all come before the batch succeeds record by record and appends the
batch to the table. -/
theorem loadTable_loads {b : Builder} {W : Nat} :
    ∀ (recs : List (Nat × Route)) (t : RouterState) (logs : List String),
      Inv t →
      t.envManager = ⟨b, W⟩ →
      (∀ pr ∈ recs, pr.2.name ≠ "") →
      (recs.map (fun pr => pr.2.name)).Nodup →
      (∀ pr ∈ recs, pr.2.name ∉ routeNames t) →
      List.Pairwise (· < ·) (recs.map Prod.fst) →
      (∀ q ∈ routePriorities t, ∀ p ∈ recs.map Prod.fst, q < p) →
      (∀ pr ∈ recs, (b pr.2.target).isSome = true) →
      ∃ t2, loadTable t logs (recs.map routeToJson) = .ok (t2, logs) ∧
        getRouteTable t2 = getRouteTable t ++
          recs.map (fun pr => (pr.2.name, pr.1, pr.2.target)) := by
  intro recs
  induction recs with
  | nil =>
    intro t logs _ _ _ _ _ _ _ _
    exact ⟨t, rfl, by simp⟩
  | cons hd rest ih =>
    intro t logs hInv hEnv hne hnod hfresh hsorted hkeys hbuild
    obtain ⟨p0, r0⟩ := hd
    rw [List.map_cons] at hnod hsorted
    obtain ⟨hnod1, hnod2⟩ := List.nodup_cons.mp hnod
    obtain ⟨hheadlt, hsrest⟩ := List.pairwise_cons.mp hsorted
    obtain ⟨pred, hb⟩ := Option.isSome_iff_exists.mp
      (hbuild (p0, r0) (List.mem_cons_self _ _))
    have hacq : t.envManager.acquire r0.target = some (List.replicate W pred) := by
      rw [hEnv, EnvironmentManager.acquire]
      simp [hb]
    have hn0 : r0.name ≠ "" := hne (p0, r0) (List.mem_cons_self _ _)
    have hp0 : ¬ (p0 : Int) < 0 := by omega
    have htn : ((p0 : Int)).toNat = p0 := by omega
    have hlook : lookupName t.namePriority r0.name = none :=
      lookupName_none_of_fresh hInv (hfresh (p0, r0) (List.mem_cons_self _ _))
    have hused : usedPriority t.priorityRoute ((p0 : Int)).toNat = false := by
      rw [htn]
      refine usedPriority_false_iff.mpr ?_
      intro q r hm he
      have : q ∈ routePriorities t := List.mem_map_of_mem Prod.fst hm
      have := hkeys q this p0 (by simp)
      omega
    have hstep := addRoute_succeeds hn0 hp0 hlook hused hacq
    have hkeylt : ∀ q ∈ t.priorityRoute.map Prod.fst, q < ((p0 : Int)).toNat := by
      rw [htn]
      intro q hq
      exact hkeys q hq p0 (by simp)
    set newR : Route := ⟨r0.name, r0.target, ((p0 : Int)).toNat,
      List.replicate W pred⟩ with hnewR
    have hins : insertSorted ((p0 : Int)).toNat newR t.priorityRoute =
        t.priorityRoute ++ [(((p0 : Int)).toNat, newR)] :=
      insertSorted_append hkeylt
    set t2 : RouterState :=
      { t with
        namePriority := (r0.name, ((p0 : Int)).toNat) :: t.namePriority,
        priorityRoute :=
          insertSorted ((p0 : Int)).toNat newR t.priorityRoute } with ht2
    have hInv2 : Inv t2 := addRoute_inv hInv hstep
    have hpr2 : t2.priorityRoute = t.priorityRoute ++ [(p0, newR)] := by
      rw [ht2]
      simp only []
      rw [hins, htn]
    have hEnv2 : t2.envManager = ⟨b, W⟩ := hEnv
    have hnames2 : routeNames t2 = routeNames t ++ [r0.name] := by
      rw [routeNames, hpr2]
      simp [routeNames]
    have hprio2 : routePriorities t2 = routePriorities t ++ [p0] := by
      rw [routePriorities, hpr2]
      simp [routePriorities]
    obtain ⟨t3, hload, htable⟩ := ih t2 logs hInv2 hEnv2
      (fun pr hm => hne pr (List.mem_cons_of_mem _ hm))
      hnod2
      (by
        intro pr hm hmem
        rw [hnames2] at hmem
        rcases List.mem_append.mp hmem with h1 | h1
        · exact hfresh pr (List.mem_cons_of_mem _ hm) h1
        · have : pr.2.name = r0.name := by simpa using h1
          exact hnod1 (this ▸ List.mem_map_of_mem (fun x => x.2.name) hm))
      hsrest
      (by
        intro q hq p hp
        rw [hprio2] at hq
        rcases List.mem_append.mp hq with h1 | h1
        · exact hkeys q h1 p (List.mem_cons_of_mem _ hp)
        · have : q = p0 := by simpa using h1
          exact this ▸ hheadlt p hp)
      (fun pr hm => hbuild pr (List.mem_cons_of_mem _ hm))
    refine ⟨t3, ?_, ?_⟩
    · simp only [List.map_cons, loadTable, routeToJson_name, routeToJson_priority,
        routeToJson_target]
      rw [hstep]
      exact hload
    · rw [htable]
      have hgt2 : getRouteTable t2 = getRouteTable t ++ [(r0.name, p0, r0.target)] := by
        rw [getRouteTable, hpr2]
        simp [getRouteTable]
      rw [hgt2]
      simp

/-! Further facts about the catalog-loading loop. -/

theorem loadTable_error_invalid :
    ∀ (table : List JVal) (t : RouterState) (logs : List String) (e : InitError),
      loadTable t logs table = .error e → e = .invalidTable := by
  intro table
  induction table with
  | nil =>
    intro t logs e h
    cases h
  | cons j0 rest ih =>
    intro t logs e h
    cases h1 : j0.getString JSON_PATH_NAME with
    | none =>
      simp [loadTable, h1] at h
      exact h.symm
    | some name =>
      cases h2 : j0.getInt JSON_PATH_PRIORITY with
      | none =>
        simp [loadTable, h1, h2] at h
        exact h.symm
      | some prio =>
        cases h3 : j0.getString JSON_PATH_TARGET with
        | none =>
          simp [loadTable, h1, h2, h3] at h
          exact h.symm
        | some target =>
          simp only [loadTable, h1, h2, h3] at h
          cases h4 : addRoute t name target prio with
          | ok s2 =>
            rw [h4] at h
            exact ih s2 logs e h
          | error e2 =>
            rw [h4] at h
            exact ih t _ e h

theorem loadTable_error_of_bad :
    ∀ (table : List JVal) (t : RouterState) (logs : List String),
      (∃ j ∈ table, ¬ ((j.getString JSON_PATH_NAME).isSome = true ∧
        (j.getInt JSON_PATH_PRIORITY).isSome = true ∧
        (j.getString JSON_PATH_TARGET).isSome = true)) →
      loadTable t logs table = .error .invalidTable := by
  intro table
  induction table with
  | nil =>
    intro t logs h
    simp at h
  | cons j0 rest ih =>
    intro t logs h
    obtain ⟨j, hj, hbad⟩ := h
    cases h1 : j0.getString JSON_PATH_NAME with
    | none => simp [loadTable, h1]
    | some name =>
      cases h2 : j0.getInt JSON_PATH_PRIORITY with
      | none => simp [loadTable, h1, h2]
      | some prio =>
        cases h3 : j0.getString JSON_PATH_TARGET with
        | none => simp [loadTable, h1, h2, h3]
        | some target =>
          have hjrest : j ∈ rest := by
            rcases List.mem_cons.mp hj with he | he
            · subst he
              exact absurd ⟨by simp [h1], by simp [h2], by simp [h3]⟩ hbad
            · exact he
          simp only [loadTable, h1, h2, h3]
          cases h4 : addRoute t name target prio with
          | ok s2 => exact ih s2 logs ⟨j, hjrest, hbad⟩
          | error e => exact ih t _ ⟨j, hjrest, hbad⟩

theorem loadTable_ok_of_parses :
    ∀ (table : List JVal) (t : RouterState) (logs : List String),
      (∀ j ∈ table, (j.getString JSON_PATH_NAME).isSome = true ∧
        (j.getInt JSON_PATH_PRIORITY).isSome = true ∧
        (j.getString JSON_PATH_TARGET).isSome = true) →
      ∃ t2 logs2, loadTable t logs table = .ok (t2, logs2) := by
  intro table
  induction table with
  | nil =>
    intro t logs _
    exact ⟨t, logs, rfl⟩
  | cons j0 rest ih =>
    intro t logs hp
    obtain ⟨hp1, hp2, hp3⟩ := hp j0 (List.mem_cons_self _ _)
    obtain ⟨name, h1⟩ := Option.isSome_iff_exists.mp hp1
    obtain ⟨prio, h2⟩ := Option.isSome_iff_exists.mp hp2
    obtain ⟨target, h3⟩ := Option.isSome_iff_exists.mp hp3
    have hrest : ∀ j ∈ rest, (j.getString JSON_PATH_NAME).isSome = true ∧
        (j.getInt JSON_PATH_PRIORITY).isSome = true ∧
        (j.getString JSON_PATH_TARGET).isSome = true :=
      fun j hj => hp j (List.mem_cons_of_mem _ hj)
    simp only [loadTable, h1, h2, h3]
    cases h4 : addRoute t name target prio with
    | ok s2 => exact ih s2 logs hrest
    | error e => exact ih t _ hrest

theorem loadTable_envManager :
    ∀ (table : List JVal) (t : RouterState) (logs : List String)
      (t2 : RouterState) (logs2 : List String),
      loadTable t logs table = .ok (t2, logs2) → t2.envManager = t.envManager := by
  intro table
  induction table with
  | nil =>
    intro t logs t2 logs2 h
    cases h
    rfl
  | cons j0 rest ih =>
    intro t logs t2 logs2 h
    cases h1 : j0.getString JSON_PATH_NAME with
    | none => simp [loadTable, h1] at h
    | some name =>
      cases h2 : j0.getInt JSON_PATH_PRIORITY with
      | none => simp [loadTable, h1, h2] at h
      | some prio =>
        cases h3 : j0.getString JSON_PATH_TARGET with
        | none => simp [loadTable, h1, h2, h3] at h
        | some target =>
          simp only [loadTable, h1, h2, h3] at h
          cases h4 : addRoute t name target prio with
          | ok s2 =>
            rw [h4] at h
            obtain ⟨_, _, _, _, preds, hacq, hs2⟩ := addRoute_ok h4
            have := ih s2 logs t2 logs2 h
            rw [this, hs2]
          | error e =>
            rw [h4] at h
            exact ih t _ t2 logs2 h

/-! Claim C5. -/

/-- C5: whenever writing the serialized catalog to the store fails,
dumpTableToStorage ends in process termination; it never returns the
stored outcome on a store failure. -/
theorem dumpTableToStorage_fatal (s : RouterState) (store : Store)
    (hfail : store.writeFails = true) :
    dumpTableToStorage s store = .processExit := by
  unfold dumpTableToStorage Store.add
  rw [hfail]
  simp

/-- Witness for C5 at a concrete table and failing store. -/
theorem dumpTableToStorage_fatal_witness :
    dumpTableToStorage sampleState failingStore = .processExit :=
  dumpTableToStorage_fatal sampleState failingStore rfl

/-! Claim C6. -/

/-- C6: constructing a Router with zero worker threads fails with the
zero-threads configuration error, constructing one with a null builder fails
with the null-builder error, and for every worker count W at least 1 with a
non-null builder the construction never fails on these two checks. -/
theorem routerInit_config_checks (store : Store) (W : Nat) :
    (∀ builder : Option Builder, routerInit builder store 0 = .error .zeroThreads) ∧
    (1 ≤ W → routerInit none store W = .error .nullBuilder) ∧
    (∀ b : Builder, 1 ≤ W →
      routerInit (some b) store W ≠ .error .zeroThreads ∧
      routerInit (some b) store W ≠ .error .nullBuilder) := by
  refine ⟨?_, ?_, ?_⟩
  · intro builder
    simp [routerInit]
  · intro hW
    unfold routerInit
    rw [if_neg (by omega : ¬ W = 0)]
  · intro b hW
    unfold routerInit
    rw [if_neg (by omega : ¬ W = 0)]
    cases hg : store.get ROUTES_TABLE_NAME with
    | error msg => exact ⟨by simp, by simp⟩
    | ok j =>
      constructor <;>
      · intro hcontra
        cases ha : j.getArray with
        | none =>
          simp only [ha] at hcontra
          cases hcontra
        | some table =>
          simp only [ha] at hcontra
          cases hl : loadTable ⟨[], [], ⟨b, W⟩, W⟩ [] table with
          | error e =>
            have he := loadTable_error_invalid table _ [] e hl
            subst he
            simp only [hl] at hcontra
            cases hcontra
          | ok pair =>
            obtain ⟨s1, logs1⟩ := pair
            simp only [hl] at hcontra
            split at hcontra <;> cases hcontra

/-- Witness for C6 at one worker thread. -/
theorem routerInit_config_checks_witness :
    routerInit (some builderTrue) emptyStore 0 = .error .zeroThreads ∧
    routerInit none emptyStore 1 = .error .nullBuilder ∧
    routerInit (some builderTrue) emptyStore 1 ≠ .error .zeroThreads := by
  obtain ⟨h1, h2, h3⟩ := routerInit_config_checks emptyStore 1
  exact ⟨h1 (some builderTrue), h2 (by decide), (h3 builderTrue (by decide)).1⟩

/-! Claim C9. -/

/-- C9: when the store holds no catalog under the fixed key, the Router
constructor writes an empty JSON array to the store under that key and
completes successfully with an empty route table. -/
theorem routerInit_absent_key (b : Builder) (store : Store) (W : Nat)
    (hW : W ≠ 0) (habsent : store.data.lookup ROUTES_TABLE_NAME = none)
    (hwrite : store.writeFails = false) :
    ∃ s st logs, routerInit (some b) store W = .ok (s, st, logs) ∧
      getRouteTable s = [] ∧
      st.data.lookup ROUTES_TABLE_NAME = some (.arr []) := by
  have hget : store.get ROUTES_TABLE_NAME = .error "not found" := by
    unfold Store.get
    rw [habsent]
  have hadd : store.add ROUTES_TABLE_NAME (.arr []) =
      .ok { store with data := (ROUTES_TABLE_NAME, .arr []) ::
        store.data.filter (fun kv => kv.1 != ROUTES_TABLE_NAME) } := by
    unfold Store.add
    rw [hwrite]
    simp
  refine ⟨⟨[], [], ⟨b, W⟩, W⟩,
    { store with data := (ROUTES_TABLE_NAME, .arr []) ::
        store.data.filter (fun kv => kv.1 != ROUTES_TABLE_NAME) },
    [MSG_TABLE_NOT_FOUND], ?_, rfl, ?_⟩
  · unfold routerInit
    rw [if_neg hW]
    simp only [hget, hadd]
  · simp [List.lookup]

/-- Witness for C9 with an empty store and one worker. -/
theorem routerInit_absent_key_witness :
    ∃ s st logs, routerInit (some builderTrue) emptyStore 1 = .ok (s, st, logs) ∧
      getRouteTable s = [] ∧
      st.data.lookup ROUTES_TABLE_NAME = some (.arr []) :=
  routerInit_absent_key builderTrue emptyStore 1 (by decide) rfl rfl

/-! Claim C10. -/

/-- C10: the Router constructor taken without an explicit thread count runs
with exactly one worker thread, the EnvironmentManager always carries the
constructor's worker count, and an acquired environment holds exactly one
predicate replica per worker. -/
theorem routerInit_default_threads (builder : Option Builder) (store : Store) :
    routerInitDefault builder store = routerInit builder store 1 ∧
    (∀ W s st logs, routerInit builder store W = .ok (s, st, logs) →
      s.envManager.numThreads = W) ∧
    (∀ m : EnvironmentManager, ∀ target preds,
      m.acquire target = some preds → preds.length = m.numThreads) := by
  refine ⟨rfl, ?_, ?_⟩
  · intro W s st logs h
    by_cases hW : W = 0
    · subst hW
      simp [routerInit] at h
    · cases builder with
      | none =>
        unfold routerInit at h
        rw [if_neg hW] at h
        cases h
      | some b =>
        unfold routerInit at h
        rw [if_neg hW] at h
        cases hg : store.get ROUTES_TABLE_NAME with
        | error msg =>
          simp only [hg] at h
          cases h
          rfl
        | ok j =>
          simp only [hg] at h
          cases ha : j.getArray with
          | none =>
            simp only [ha] at h
            cases h
          | some table =>
            simp only [ha] at h
            cases hl : loadTable ⟨[], [], ⟨b, W⟩, W⟩ [] table with
            | error e =>
              simp only [hl] at h
              cases h
            | ok pair =>
              obtain ⟨s1, logs1⟩ := pair
              simp only [hl] at h
              have hem := loadTable_envManager table _ [] s1 logs1 hl
              by_cases hemp : (getRouteTable s1).isEmpty = true
              · rw [if_pos hemp] at h
                cases h
                rw [hem]
              · rw [if_neg hemp] at h
                cases h
                rw [hem]
  · intro m target preds hacq
    unfold EnvironmentManager.acquire at hacq
    cases hb : m.builder target with
    | none =>
      rw [hb] at hacq
      cases hacq
    | some p =>
      rw [hb] at hacq
      simp at hacq
      rw [← hacq]
      simp

/-- Witness for C10: a default-constructed router over an empty store has a
one-thread environment manager and a one-replica acquisition. -/
theorem routerInit_default_threads_witness :
    routerInitDefault (some builderTrue) emptyStore =
      routerInit (some builderTrue) emptyStore 1 ∧
    (emptyRouterState builderTrue 1).envManager.numThreads = 1 ∧
    [predTrue].length = (⟨builderTrue, 1⟩ : EnvironmentManager).numThreads := by
  obtain ⟨h1, h2, h3⟩ := routerInit_default_threads (some builderTrue) emptyStore
  refine ⟨h1, ?_, ?_⟩
  · exact h2 1 (emptyRouterState builderTrue 1)
      ⟨[(ROUTES_TABLE_NAME, .arr [])], false⟩ [MSG_TABLE_NOT_FOUND] rfl
  · exact h3 ⟨builderTrue, 1⟩ "TA" [predTrue] rfl

/-! Claim C4. -/

/-- C4 counterexample: a catalog present under the fixed key but corrupt (not
a JSON array) makes Router construction fail with the invalid-table error;
construction does not succeed with an empty route table as the claim
states. -/
theorem routerInit_corrupt_counterexample :
    routerInit (some builderTrue) corruptStore 1 = .error .invalidTable ∧
    ∀ s st logs, routerInit (some builderTrue) corruptStore 1 ≠ .ok (s, st, logs) := by
  refine ⟨rfl, ?_⟩
  intro s st logs h
  rw [(rfl : routerInit (some builderTrue) corruptStore 1 = .error .invalidTable)] at h
  cases h

/-- C4 (amended): when the persisted catalog under the fixed store key exists
but is corrupt — it is not a JSON array, or some record lacks the name,
priority or target field — Router construction fails with the invalid-table
error (the constructor throws) instead of proceeding with an empty
catalog. -/
theorem routerInit_corrupt_fails (b : Builder) (store : Store) (W : Nat)
    (hW : W ≠ 0) (j : JVal)
    (hget : store.get ROUTES_TABLE_NAME = .ok j)
    (hbad : j.getArray = none ∨
      ∃ jr ∈ (j.getArray).getD [],
        ¬ ((jr.getString JSON_PATH_NAME).isSome = true ∧
          (jr.getInt JSON_PATH_PRIORITY).isSome = true ∧
          (jr.getString JSON_PATH_TARGET).isSome = true)) :
    routerInit (some b) store W = .error .invalidTable := by
  unfold routerInit
  rw [if_neg hW]
  simp only [hget]
  cases ha : j.getArray with
  | none => simp
  | some table =>
    rcases hbad with h1 | h1
    · rw [ha] at h1
      cases h1
    · rw [ha] at h1
      simp only [Option.getD_some] at h1
      simp only [loadTable_error_of_bad table ⟨[], [], ⟨b, W⟩, W⟩ [] h1]

/-- Witness for the amended C4 at a record lacking fields. -/
theorem routerInit_corrupt_fails_witness :
    routerInit (some builderTrue) badRecStore 1 = .error .invalidTable := by
  refine routerInit_corrupt_fails builderTrue badRecStore 1 (by decide)
    (.arr [.obj [(JSON_PATH_NAME, .str "r1")]]) rfl (Or.inr ?_)
  refine ⟨.obj [(JSON_PATH_NAME, .str "r1")], List.mem_singleton.mpr rfl, ?_⟩
  intro hcon
  obtain ⟨h1, h2, h3⟩ := hcon
  have h4 : ((JVal.obj [(JSON_PATH_NAME, JVal.str "r1")]).getInt
      JSON_PATH_PRIORITY).isSome = false := by decide
  rw [h4] at h2
  cases h2

/-! Claim C8. -/

/-- C8: when start-up loading leaves the route table empty the router still
constructs successfully and logs the no-environment warning, and it creates
no fallback route: with an empty catalog the table stays empty. -/
theorem routerInit_empty_warns (b : Builder) (store : Store) (W : Nat)
    (hW : W ≠ 0) (js : List JVal)
    (hget : store.get ROUTES_TABLE_NAME = .ok (.arr js))
    (hparse : ∀ j ∈ js, (j.getString JSON_PATH_NAME).isSome = true ∧
      (j.getInt JSON_PATH_PRIORITY).isSome = true ∧
      (j.getString JSON_PATH_TARGET).isSome = true) :
    ∃ s st logs, routerInit (some b) store W = .ok (s, st, logs) ∧
      (getRouteTable s = [] → MSG_NO_ENVIRONMENT ∈ logs) ∧
      (js = [] → getRouteTable s = []) := by
  obtain ⟨t2, logs2, hl⟩ := loadTable_ok_of_parses js ⟨[], [], ⟨b, W⟩, W⟩ [] hparse
  unfold routerInit
  rw [if_neg hW]
  simp only [hget, JVal.getArray]
  simp only [hl]
  by_cases hemp : (getRouteTable t2).isEmpty = true
  · rw [if_pos hemp]
    refine ⟨t2, store, logs2 ++ [MSG_NO_ENVIRONMENT], rfl, ?_, ?_⟩
    · intro _
      simp
    · intro _
      exact List.isEmpty_iff.mp hemp
  · rw [if_neg hemp]
    refine ⟨t2, store, logs2, rfl, ?_, ?_⟩
    · intro hE
      exact absurd (List.isEmpty_iff.mpr hE) hemp
    · intro hjs
      subst hjs
      cases hl
      rfl

/-- Witness for C8 with an empty persisted catalog. -/
theorem routerInit_empty_warns_witness :
    ∃ s st logs, routerInit (some builderTrue) emptyTableStore 1 = .ok (s, st, logs) ∧
      (getRouteTable s = [] → MSG_NO_ENVIRONMENT ∈ logs) ∧
      (([] : List JVal) = [] → getRouteTable s = []) :=
  routerInit_empty_warns builderTrue emptyTableStore 1 (by decide) [] rfl
    (fun j hj => absurd hj (List.not_mem_nil j))

/-! Claim C7. -/

/-- C7: during the start-up catalog load a record whose addRoute fails is
logged and skipped and loading continues with the remaining records, and
Router construction still succeeds whenever every record carries the three
required fields. -/
theorem routerInit_partial_load (b : Builder) (store : Store) (W : Nat)
    (hW : W ≠ 0) (js : List JVal)
    (hget : store.get ROUTES_TABLE_NAME = .ok (.arr js))
    (hparse : ∀ j ∈ js, (j.getString JSON_PATH_NAME).isSome = true ∧
      (j.getInt JSON_PATH_PRIORITY).isSome = true ∧
      (j.getString JSON_PATH_TARGET).isSome = true) :
    (∃ s st logs, routerInit (some b) store W = .ok (s, st, logs)) ∧
    (∀ (t : RouterState) (logs : List String) (rest : List JVal) (j : JVal)
      (n tg : String) (p : Int) (e : RouterError),
      j.getString JSON_PATH_NAME = some n →
      j.getInt JSON_PATH_PRIORITY = some p →
      j.getString JSON_PATH_TARGET = some tg →
      addRoute t n tg p = .error e →
      loadTable t logs (j :: rest) =
        loadTable t (logs ++ [warnCouldNotAdd n]) rest) := by
  constructor
  · obtain ⟨t2, logs2, hl⟩ := loadTable_ok_of_parses js ⟨[], [], ⟨b, W⟩, W⟩ [] hparse
    unfold routerInit
    rw [if_neg hW]
    simp only [hget, JVal.getArray]
    simp only [hl]
    by_cases hemp : (getRouteTable t2).isEmpty = true
    · rw [if_pos hemp]
      exact ⟨t2, store, logs2 ++ [MSG_NO_ENVIRONMENT], rfl⟩
    · rw [if_neg hemp]
      exact ⟨t2, store, logs2, rfl⟩
  · intro t logs rest j n tg p e h1 h2 h3 h4
    simp only [loadTable, h1, h2, h3, h4]

/-- Witness for C7: with a builder that no longer knows TB, the two-record
catalog loads with r2 skipped and construction succeeds. -/
theorem routerInit_partial_load_witness :
    (∃ s st logs, routerInit (some builderNoTB) twoRouteStore 1 = .ok (s, st, logs)) ∧
    loadTable (emptyRouterState builderNoTB 1) [] [recR2] =
      loadTable (emptyRouterState builderNoTB 1) [warnCouldNotAdd "r2"] [] := by
  obtain ⟨h1, h2⟩ := routerInit_partial_load builderNoTB twoRouteStore 1
    (by decide) [recR1, recR2] rfl
    (by
      intro j hj
      rcases List.mem_cons.mp hj with he | he
      · subst he
        exact ⟨rfl, rfl, rfl⟩
      · have he2 : j = recR2 := by simpa using he
        subst he2
        exact ⟨rfl, rfl, rfl⟩)
  refine ⟨h1, ?_⟩
  have h3 := h2 (emptyRouterState builderNoTB 1) [] [] recR2 "r2" "TB" 10
    .targetNotFound rfl rfl rfl rfl
  simpa using h3

/-! Claim C2. -/

/-- C2: after any sequence of addRoute / removeRoute / changeRoutePriority
operations from the empty table (failed operations leave the table
unchanged), invariants I1 to I3 hold: route names are unique, no two routes
share a priority, the name-to-priority index is duplicate-free, and the two
route indexes describe exactly the same set of routes. -/
theorem applyOps_invariants (b : Builder) (threads : Nat) (ops : List Op) :
    uniqueNames (applyOps b threads ops) ∧
    uniquePriorities (applyOps b threads ops) ∧
    ((applyOps b threads ops).namePriority.map Prod.fst).Nodup ∧
    indexesAgree (applyOps b threads ops) := by
  have h := applyOps_inv b threads ops
  exact ⟨h.names_nodup, h.prio_nodup, h.np_nodup, h.agree⟩

/-! Claim C1. -/

/-- C1: dispatch walks a well-formed table in ascending priority order and
issues exactly one ingest call, to the first route whose per-worker predicate
matches the event; for two matching routes A and B with A of strictly lower
priority, route B never receives the event, the selected route's priority is
at most A's, and A itself receives the event whenever no matching route
precedes it. -/
theorem dispatch_priority_order (s : RouterState) (i : Nat) (e : Event)
    (hsorted : List.Pairwise (· < ·) (routePriorities s))
    (hkey : ∀ p r, (p, r) ∈ s.priorityRoute → r.priority = p)
    (hnames : uniqueNames s)
    (A B : Route)
    (hA : (A.priority, A) ∈ s.priorityRoute)
    (hB : (B.priority, B) ∈ s.priorityRoute)
    (hmA : A.matchesAt i e = true) (hmB : B.matchesAt i e = true)
    (hAB : A.priority < B.priority) :
    ∃ r, dispatchRoute s i e = some r ∧ ingestCalls s i e = [r.target] ∧
      r.matchesAt i e = true ∧ r.priority ≤ A.priority ∧ r.name ≠ B.name ∧
      (∀ p x, (p, x) ∈ s.priorityRoute → x.matchesAt i e = true →
        r.priority ≤ x.priority) ∧
      ((∀ p x, (p, x) ∈ s.priorityRoute → x.matchesAt i e = true →
        A.priority ≤ x.priority) → r = A) := by
  obtain ⟨r, hscan, hmr, ⟨pr1, hpr1⟩, hmin⟩ :=
    scanRoutes_first_min hsorted hkey hA hmA
  have hrA : r.priority ≤ A.priority := hmin A.priority A hA hmA
  have hkeyr : r.priority = pr1 := hkey pr1 r hpr1
  have hprio_nodup : (s.priorityRoute.map Prod.fst).Nodup :=
    hsorted.imp (fun hl => Nat.ne_of_lt hl)
  refine ⟨r, hscan, ?_, hmr, hrA, ?_, hmin, ?_⟩
  · rw [ingestCalls, dispatchRoute, hscan]
  · intro hname
    obtain ⟨hpq, hab⟩ := name_unique hnames hpr1 hB hname
    have hrB : r.priority = B.priority := by rw [hab]
    omega
  · intro hAmin
    have h1 : A.priority ≤ r.priority := hAmin pr1 r hpr1 hmr
    have h2 : pr1 = A.priority := by omega
    rw [h2] at hpr1
    exact key_unique hprio_nodup hpr1 hA

/-- Witness for C1 on the sample two-route table, worker 0, a concrete
event matched by both routes. -/
theorem dispatch_priority_order_witness :
    ∃ r, dispatchRoute sampleState 0 0 = some r ∧
      ingestCalls sampleState 0 0 = [r.target] ∧
      r.matchesAt 0 0 = true ∧ r.priority ≤ routeA.priority ∧
      r.name ≠ routeB.name ∧
      (∀ p x, (p, x) ∈ sampleState.priorityRoute → x.matchesAt 0 0 = true →
        r.priority ≤ x.priority) ∧
      ((∀ p x, (p, x) ∈ sampleState.priorityRoute → x.matchesAt 0 0 = true →
        routeA.priority ≤ x.priority) → r = routeA) := by
  have hpr : sampleState.priorityRoute = [(5, routeA), (10, routeB)] := rfl
  refine dispatch_priority_order sampleState 0 0 ?_ ?_ ?_ routeA routeB
    ?_ ?_ rfl rfl (by decide)
  · rw [routePriorities, hpr]
    decide
  · intro p r hm
    rw [hpr] at hm
    simp at hm
    rcases hm with ⟨h1, h2⟩ | ⟨h1, h2⟩ <;> (subst h1; subst h2; rfl)
  · rw [uniqueNames, routeNames, hpr]
    decide
  · rw [hpr]
    exact List.mem_cons_self _ _
  · rw [hpr]
    exact List.mem_cons_of_mem _ (List.mem_cons_self _ _)

/-! Claim C3. -/

/-- C3: building a Router over a store holding the catalog persisted from a
well-formed table and then listing the table yields exactly the persisted
(name, priority, target) sequence, sorted ascending by priority, provided
every recorded target still builds successfully. -/
theorem routerInit_roundtrip (b : Builder) (W : Nat) (store : Store)
    (s : RouterState) (hInv : Inv s) (hW : W ≠ 0)
    (hget : store.get ROUTES_TABLE_NAME = .ok (tableToJson s))
    (hbuild : ∀ pr ∈ s.priorityRoute, (b pr.2.target).isSome = true) :
    ∃ s2 logs, routerInit (some b) store W = .ok (s2, store, logs) ∧
      getRouteTable s2 = getRouteTable s ∧
      List.Pairwise (· < ·) ((getRouteTable s2).map (fun rec => rec.2.1)) := by
  obtain ⟨t2, hload, htable⟩ := loadTable_loads s.priorityRoute
    ⟨[], [], ⟨b, W⟩, W⟩ [] (inv_empty b W) rfl
    (fun pr hm => hInv.names_nonempty pr.1 pr.2 hm)
    hInv.names_nodup
    (by
      intro pr hm hmem
      simp [routeNames] at hmem)
    hInv.prio_sorted
    (by
      intro q hq
      simp [routePriorities] at hq)
    hbuild
  have hgt : getRouteTable t2 = getRouteTable s := by
    rw [htable]
    rfl
  have hsorted2 : List.Pairwise (· < ·)
      ((getRouteTable t2).map (fun rec => rec.2.1)) := by
    rw [hgt, getRouteTable, List.map_map]
    exact hInv.prio_sorted
  unfold routerInit
  rw [if_neg hW]
  simp only [hget]
  have hga : (tableToJson s).getArray = some (s.priorityRoute.map routeToJson) := rfl
  simp only [hga]
  simp only [hload]
  by_cases hemp : (getRouteTable t2).isEmpty = true
  · rw [if_pos hemp]
    exact ⟨t2, [] ++ [MSG_NO_ENVIRONMENT], rfl, hgt, hsorted2⟩
  · rw [if_neg hemp]
    exact ⟨t2, [], rfl, hgt, hsorted2⟩

/-- Witness for C3: the persisted sample catalog round-trips. -/
theorem routerInit_roundtrip_witness :
    ∃ s2 logs, routerInit (some builderTrue) sampleStore 1 =
        .ok (s2, sampleStore, logs) ∧
      getRouteTable s2 = getRouteTable sampleState ∧
      List.Pairwise (· < ·) ((getRouteTable s2).map (fun rec => rec.2.1)) :=
  routerInit_roundtrip builderTrue 1 sampleStore sampleState
    (applyOps_inv builderTrue 1 sampleOps) (by decide) rfl (fun pr hm => rfl)

end WazuhRouter
